import Mathlib

/-!
# Verification of the Q-Forge MCP SQL agent planning and safety-policy core

Shallow embedding of `mcp_sql_agent/app/application/sql_validation.py`,
`safety_policy.py` and `sql_planning.py` (the query-planning and
safety-policy engine), together with proofs and refutations of the
frozen specification claims.

Modelling conventions:
* Python `str` is modelled as Lean `String` / `List Char`; the ASCII
  fragment of Python's case folding, whitespace and `\w` word classes is
  used (all inputs appearing in the specification are ASCII).
* Python `float` risk scores are modelled as exact rationals `ℚ`;
  `round(x, 2)` is modelled as rounding `x * 100` to the nearest integer.
* Python dict-shaped inputs (`plan`, `plan_meta`) are modelled as
  structures whose fields carry the `dict.get` defaults of the source.
* Regex patterns from the source are embedded character-by-character,
  including the doubled backslashes that appear verbatim in
  `sql_planning.py` (there `r"join\\s+"` denotes the regex
  `join\\s+`, i.e. the literal text `join`, one backslash, then one or
  more `s` characters — not whitespace).
-/

namespace McpSqlAgent

/-- ASCII word character, the `\w` class used by the `\b` boundaries in
`re.search(r"\blimit\b", ...)` and `re.findall(r"\bjoin\b", ...)`. -/
def isWordChar (c : Char) : Bool :=
  c.isAlpha || c.isDigit || c = '_'

/-- Python `str.lower()` on a character list (ASCII fragment). -/
def pyLower (l : List Char) : List Char :=
  l.map Char.toLower

/-- Python `str.strip()` on a character list: drop whitespace from both
ends. -/
def pyStrip (l : List Char) : List Char :=
  ((l.dropWhile Char.isWhitespace).reverse.dropWhile Char.isWhitespace).reverse

/-- Python `str.rstrip()` on a character list: drop trailing whitespace. -/
def pyRstrip (l : List Char) : List Char :=
  (l.reverse.dropWhile Char.isWhitespace).reverse

/-- `text.strip().lower()`, the normalisation applied to incoming SQL by
`evaluate_policy` and `_assess_query_risk`. -/
def stripLower (s : String) : List Char :=
  pyLower (pyStrip s.data)

/-- Substring test: does `pat` occur contiguously inside `l`?  Models the
Python `in` operator on strings. -/
def containsSeq (pat : List Char) : List Char → Bool
  | [] => pat.isPrefixOf ([] : List Char)
  | c :: rest => pat.isPrefixOf (c :: rest) || containsSeq pat rest

/-- Does a word-bounded occurrence of `word` start at the head of `l`,
given the character `prev` immediately before `l` (`none` at the start of
the text)?  Models one candidate position of `re.search(r"\b<word>\b")`
with `re.IGNORECASE` (the word itself is matched case-insensitively). -/
def wordBoundedAt (word : List Char) (prev : Option Char) (l : List Char) : Bool :=
  (match prev with
   | none => true
   | some c => !isWordChar c)
  && word.isPrefixOf (pyLower l)
  && (match l.drop word.length with
      | [] => true
      | c :: _ => !isWordChar c)

/-- Scan helper: is there a word-bounded, case-insensitive occurrence of
`word` anywhere in `l`, when the character preceding `l` is `prev`? -/
def hasWordAux (word : List Char) (prev : Option Char) : List Char → Bool
  | [] => wordBoundedAt word prev []
  | c :: rest => wordBoundedAt word prev (c :: rest) || hasWordAux word (some c) rest

/-- Scan helper: count the word-bounded, case-insensitive occurrences of
`word` in `l` (occurrences of a single word-bounded token cannot overlap,
so counting start positions agrees with `len(re.findall(...))`). -/
def countWordAux (word : List Char) (prev : Option Char) : List Char → Nat
  | [] => 0
  | c :: rest =>
      (if wordBoundedAt word prev (c :: rest) then 1 else 0) + countWordAux word (some c) rest

/-- `has_limit(sql)` from `sql_validation.py`:
`re.search(r"\blimit\b", sql, re.IGNORECASE) is not None`. -/
def has_limit (sql : String) : Bool :=
  hasWordAux ['l', 'i', 'm', 'i', 't'] none sql.data

/-- `len(re.findall(r"\bjoin\b", text))` from `safety_policy.py`. -/
def countJoin (text : List Char) : Nat :=
  countWordAux ['j', 'o', 'i', 'n'] none text

/-- `strip_trailing_semicolon(sql)` from `sql_validation.py`: right-strip
whitespace, then split off a trailing semicolon. -/
def strip_trailing_semicolon (sql : String) : String × String :=
  let text := pyRstrip sql.data
  if text.getLast? = some ';' then
    (String.mk (text.dropLast), ";")
  else
    (String.mk text, "")

/-- `apply_limit(sql, limit)` from `sql_validation.py`. -/
def apply_limit (sql : String) (limit : Int) : String × Bool :=
  if has_limit sql then
    (sql, false)
  else
    let (base, semi) := strip_trailing_semicolon sql
    (base ++ " LIMIT " ++ toString limit ++ semi, true)

/-- The `plan` argument of `evaluate_policy`: the two keys the function
reads, with the `dict.get` defaults `""` and `0`. -/
structure Plan where
  safe_sql : String := ""
  risk_score : ℚ := 0
  deriving Repr, DecidableEq

/-- `PolicyDecision`: the dict returned by `evaluate_policy`. -/
structure PolicyDecision where
  allowed : Bool
  policy : String
  reason : String
  suggested_fix : String
  deriving Repr, DecidableEq

/-- `evaluate_policy(sql, plan, read_only)` from `safety_policy.py`:
ordered rule chain READ_ONLY, SINGLE_STATEMENT, JOIN_COMPLEXITY,
UNBOUNDED_READ / SAFE_LIMIT_APPLIED, RISK_THRESHOLD, ALLOW. -/
def evaluate_policy (sql : String) (plan : Plan) (read_only : Bool := true) : PolicyDecision :=
  let text := stripLower sql
  if read_only && !(['s', 'e', 'l', 'e', 'c', 't'].isPrefixOf text
                    || ['w', 'i', 't', 'h'].isPrefixOf text) then
    { allowed := false, policy := "READ_ONLY", reason := "WRITE_OPERATION_DETECTED",
      suggested_fix := "Use SELECT or switch to a write tool with explicit approval." }
  else if text.dropLast.contains ';' then
    { allowed := false, policy := "SINGLE_STATEMENT", reason := "MULTIPLE_STATEMENTS_DETECTED",
      suggested_fix := "Send a single statement per request." }
  else if 3 ≤ countJoin text then
    { allowed := false, policy := "JOIN_COMPLEXITY", reason := "TOO_MANY_JOINS",
      suggested_fix := "Reduce joins or add filters and indexes." }
  else if !containsSeq " where ".data (' ' :: text ++ [' '])
          && !hasWordAux ['l', 'i', 'm', 'i', 't'] none text then
    if plan.safe_sql ≠ "" && pyLower (pyStrip plan.safe_sql.data) ≠ text then
      { allowed := true, policy := "SAFE_LIMIT_APPLIED", reason := "NO_WHERE_OR_LIMIT",
        suggested_fix := "Add WHERE filters or a LIMIT clause." }
    else
      { allowed := false, policy := "UNBOUNDED_READ", reason := "NO_WHERE_OR_LIMIT",
        suggested_fix := "Add WHERE filters or a LIMIT clause." }
  else if (7 : ℚ) / 10 ≤ plan.risk_score then
    { allowed := false, policy := "RISK_THRESHOLD", reason := "HIGH_RISK_SCORE",
      suggested_fix := "Apply filters, add LIMIT, or optimize indexes." }
  else
    { allowed := true, policy := "ALLOW", reason := "", suggested_fix := "" }

/-! ## Regex machinery for `sql_planning.py`

The raw-string patterns in `sql_planning.py` all spell whitespace as
`\\s` (two backslash characters inside a raw string), so the compiled
regexes demand a literal backslash followed by one or more `s`
characters.  The matchers below embed those patterns exactly as
compiled, with Python's leftmost/greedy semantics. -/

/-- The character class `[a-z0-9_]` used by the capture groups. -/
def isIdentChar (c : Char) : Bool :=
  ('a' ≤ c && c ≤ 'z') || c.isDigit || c = '_'

/-- Match a literal character sequence, returning the remainder. -/
def expectLit : List Char → List Char → Option (List Char)
  | [], l => some l
  | _ :: _, [] => none
  | c :: cs, x :: xs => if x = c then expectLit cs xs else none

/-- Match the regex fragment `\\s+` (one literal backslash, then one or
more `s`), when the next pattern element is not `s` or an ident char: the
greedy maximal run is canonical. -/
def matchBackslashSRun : List Char → Option (List Char)
  | '\\' :: rest =>
      let run := rest.takeWhile (fun c => c = 's')
      if run.isEmpty then none else some (rest.dropWhile (fun c => c = 's'))
  | _ => none

/-- Match the regex fragment `\\s+([a-z0-9_]+)` followed (in every
pattern of the source) by a literal backslash.  Greedy semantics: the
`s`-run takes its maximum, the group takes the maximal ident run after
it; when that run is empty the engine backtracks one `s` into the group.
All backtracking branches resume at the same position, so the first
successful branch is canonical. -/
def matchSPlusGroup (l : List Char) : Option (List Char × List Char) :=
  match l with
  | '\\' :: rest =>
      let sRun := rest.takeWhile (fun c => c = 's')
      let afterS := rest.dropWhile (fun c => c = 's')
      if sRun.isEmpty then none
      else
        let g := afterS.takeWhile isIdentChar
        if !g.isEmpty then some (g, afterS.dropWhile isIdentChar)
        else if 2 ≤ sRun.length then some (['s'], afterS)
        else none
  | _ => none

/-- Match the regex fragment `\\.` (a literal backslash, then any
character other than a newline). -/
def matchBackslashAny : List Char → Option (List Char)
  | '\\' :: c :: rest => if c = '\n' then none else some rest
  | _ => none

/-- Match a capture group `([a-z0-9_]+)` at the head (greedy maximal,
nothing after it in the pattern constrains it). -/
def matchGroupIdent (l : List Char) : Option (List Char × List Char) :=
  let g := l.takeWhile isIdentChar
  if g.isEmpty then none else some (g, l.dropWhile isIdentChar)

/-- One anchored attempt of
`join\\s+([a-z0-9_]+)\\s+on\\s+([a-z0-9_]+)\\.([a-z0-9_]+)`
(the first findall of `_suggest_indexes_from_sql`), yielding the three
groups and the remainder after the match. -/
def matchJoinOnAt (l : List Char) : Option ((String × String × String) × List Char) := do
  let l ← expectLit ['j', 'o', 'i', 'n'] l
  let (g1, l) ← matchSPlusGroup l
  let l ← matchBackslashSRun l
  let l ← expectLit ['o', 'n'] l
  let (g2, l) ← matchSPlusGroup l
  let l ← matchBackslashAny l
  let (g3, l) ← matchGroupIdent l
  return ((String.mk g1, String.mk g2, String.mk g3), l)

/-- One anchored attempt of `where\\s+([a-z0-9_]+)\\.([a-z0-9_]+)`. -/
def matchWhereAt (l : List Char) : Option ((String × String) × List Char) := do
  let l ← expectLit ['w', 'h', 'e', 'r', 'e'] l
  let (g1, l) ← matchSPlusGroup l
  let l ← matchBackslashAny l
  let (g2, l) ← matchGroupIdent l
  return ((String.mk g1, String.mk g2), l)

/-- One anchored attempt of `order\\s+by\\s+([a-z0-9_]+)\\.([a-z0-9_]+)`. -/
def matchOrderByAt (l : List Char) : Option ((String × String) × List Char) := do
  let l ← expectLit ['o', 'r', 'd', 'e', 'r'] l
  let l ← matchBackslashSRun l
  let l ← expectLit ['b', 'y'] l
  let (g1, l) ← matchSPlusGroup l
  let l ← matchBackslashAny l
  let (g2, l) ← matchGroupIdent l
  return ((String.mk g1, String.mk g2), l)

/-- `re.findall` driver: scan left to right, emitting each anchored match
and resuming after its end (matches are non-overlapping).  Fuel is the
text length; every step consumes at least one character, so the fuel
never runs out on the initial call. -/
def scanAll {α : Type} (m : List Char → Option (α × List Char)) : Nat → List Char → List α
  | 0, _ => []
  | _ + 1, [] => []
  | fuel + 1, c :: rest =>
      match m (c :: rest) with
      | some (a, l') => a :: scanAll m fuel l'
      | none => scanAll m fuel rest

/-- `re.findall(pattern, text)` over a character list. -/
def findAll {α : Type} (m : List Char → Option (α × List Char)) (l : List Char) : List α :=
  scanAll m l.length l

/-- Tail of the leading-wildcard pattern: `.*%'` — a run of non-newline
characters followed by `%'`. -/
def findPctQuote : List Char → Bool
  | '%' :: '\'' :: _ => true
  | '\n' :: _ => false
  | _ :: rest => findPctQuote rest
  | [] => false

/-- One anchored attempt of `like\\s+'%.*%'` (existence only). -/
def matchLikeAt (l : List Char) : Bool :=
  match expectLit ['l', 'i', 'k', 'e'] l with
  | none => false
  | some l =>
    match matchBackslashSRun l with
    | none => false
    | some l =>
      match expectLit ['\'', '%'] l with
      | none => false
      | some l => findPctQuote l

/-- `re.search(r"like\\s+'%.*%'", text) is not None`. -/
def searchLike : List Char → Bool
  | [] => false
  | c :: rest => matchLikeAt (c :: rest) || searchLike rest

/-- One anchored attempt of `\\bselect\\s+\\*\\b`, i.e. literal `\b`,
`select`, literal backslash + `s`-run, then `\\*\\b` which matches a
nonempty run of backslashes followed by the literal `b`. -/
def matchSelStarAt (l : List Char) : Bool :=
  match expectLit ['\\', 'b', 's', 'e', 'l', 'e', 'c', 't'] l with
  | none => false
  | some l =>
    match matchBackslashSRun l with
    | none => false
    | some l =>
      let run := l.takeWhile (fun c => c = '\\')
      match l.dropWhile (fun c => c = '\\') with
      | 'b' :: _ => !run.isEmpty
      | _ => false

/-- `re.search(r"\\bselect\\s+\\*\\b", text) is not None`. -/
def searchSelStar : List Char → Bool
  | [] => false
  | c :: rest => matchSelStarAt (c :: rest) || searchSelStar rest

/-- Order-preserving de-duplication, modelling `list(dict.fromkeys(...))`. -/
def dedupKeepOrder (l : List String) : List String :=
  l.foldl (fun acc s => if acc.contains s then acc else acc ++ [s]) []

/-- `_suggest_indexes_from_sql(sql)` from `sql_planning.py`. -/
def suggest_indexes_from_sql (sql : String) : List String :=
  let text := pyLower sql.data
  let joinSugg := (findAll matchJoinOnAt text).map
    (fun g => "Consider index on " ++ g.2.1 ++ "." ++ g.2.2 ++ ".")
  let whereSugg := (findAll matchWhereAt text).map
    (fun g => "Consider index on " ++ g.1 ++ "." ++ g.2 ++ ".")
  let orderSugg := (findAll matchOrderByAt text).map
    (fun g => "Consider index on " ++ g.1 ++ "." ++ g.2 ++ " for ORDER BY.")
  dedupKeepOrder (joinSugg ++ whereSugg ++ orderSugg)

/-! ## Risk scorer (`_assess_query_risk`) -/

/-- The keys of `plan_meta` read by `_assess_query_risk`, with their
`dict.get` defaults.  `total_cost = none` models both an absent key and a
non-numeric value (the `isinstance` guard in the source). -/
structure PlanMeta where
  total_cost : Option ℚ := none
  plan_risks : List String := []
  deriving Repr, DecidableEq

/-- Outcome of `_assess_query_risk`. -/
structure RiskAssessment where
  risk_score : ℚ
  risky_reasons : List String
  improvements : List String
  deriving Repr, DecidableEq

/-- Python `round(x, 2)` on the exact rational model: round `x * 100` to
the nearest integer and scale back. -/
def round2 (q : ℚ) : ℚ :=
  ((round (q * 100) : ℤ) : ℚ) / 100

/-- Heuristic 1: `" where " not in f" {text} " and not has_limit(text)`. -/
def riskNoWhereLimit (text : List Char) : Bool :=
  !containsSeq " where ".data (' ' :: text ++ [' '])
    && !hasWordAux ['l', 'i', 'm', 'i', 't'] none text

/-- Heuristic 2: `" join " in f" {text} "`. -/
def riskJoin (text : List Char) : Bool :=
  containsSeq " join ".data (' ' :: text ++ [' '])

/-- Heuristic 4: `" order by " in f" {text} " and not has_limit(text)`. -/
def riskOrderBy (text : List Char) : Bool :=
  containsSeq " order by ".data (' ' :: text ++ [' '])
    && !hasWordAux ['l', 'i', 'm', 'i', 't'] none text

/-- Heuristic 6: `isinstance(total_cost, (int, float)) and total_cost > 10000`. -/
def riskHighCost (meta : PlanMeta) : Bool :=
  match meta.total_cost with
  | some c => 10000 < c
  | none => false

/-- The additive score accumulated by `_assess_query_risk` before the
final cap, one addend per heuristic in source order (0.3, 0.1, 0.2, 0.1,
0.05, 0.2, 0.2). -/
def riskScoreRaw (text : List Char) (meta : PlanMeta) : ℚ :=
  (if riskNoWhereLimit text then 3 / 10 else 0)
    + (if riskJoin text then 1 / 10 else 0)
    + (if searchLike text then 2 / 10 else 0)
    + (if riskOrderBy text then 1 / 10 else 0)
    + (if searchSelStar text then 1 / 20 else 0)
    + (if riskHighCost meta then 2 / 10 else 0)
    + (if meta.plan_risks.isEmpty then 0 else 2 / 10)

/-- `_assess_query_risk(sql, plan_meta)` from `sql_planning.py`: the
reasons and improvements are appended in the same fixed heuristic order
as the score addends; plan risks are appended verbatim; index
suggestions are appended to the improvements; an empty improvement list
gets the fallback message; the score is capped at 1.0 and rounded to two
decimals. -/
def assess_query_risk (sql : String) (meta : PlanMeta) : RiskAssessment :=
  let text := stripLower sql
  let risks :=
    (if riskNoWhereLimit text then ["SELECT without WHERE or LIMIT."] else [])
      ++ (if riskJoin text then ["JOIN detected; ensure indexed join keys."] else [])
      ++ (if searchLike text then ["Leading wildcard LIKE can be slow."] else [])
      ++ (if riskOrderBy text then ["ORDER BY without LIMIT can be expensive."] else [])
      ++ (if searchSelStar text then ["SELECT * can fetch unnecessary columns."] else [])
      ++ (if riskHighCost meta then ["High planner cost detected."] else [])
      ++ meta.plan_risks
  let improvements :=
    (if riskNoWhereLimit text then ["Add WHERE filters to reduce scanned rows."] else [])
      ++ (if riskJoin text then ["Add indexes on JOIN columns if missing."] else [])
      ++ (if searchLike text then ["Prefer prefix search or use a trigram/full-text index."] else [])
      ++ (if riskOrderBy text then ["Add LIMIT when ordering large tables."] else [])
      ++ (if searchSelStar text then ["Select only the columns you need."] else [])
      ++ (if riskHighCost meta then ["Consider adding WHERE filters or indexes."] else [])
      ++ suggest_indexes_from_sql (String.mk text)
  let improvements :=
    if improvements.isEmpty then
      ["Query looks reasonable; no obvious improvements detected."]
    else improvements
  { risk_score := round2 (min (riskScoreRaw text meta) 1)
    risky_reasons := risks
    improvements := improvements }

/-! ## Schema graph and join-path search -/

/-- Undirected adjacency list, modelling the `dict[str, list[str]]`
produced by `_build_schema_graph`. -/
def Graph := List (String × List String)

/-- `graph.get(node, [])`. -/
def adjOf (graph : Graph) (node : String) : List String :=
  match List.find? (fun p => p.1 = node) graph with
  | some p => p.2
  | none => []

/-- Inner loop of the BFS of `_find_join_path`: scan the popped node's
neighbors in order; skip visited ones; return the finished path as soon
as the target appears; otherwise mark the neighbor visited and append it
to the queue.  Returns either the found path or the updated visited set
and queue. -/
def bfsNeighbors (target : String) (path : List String) :
    List String → List (String × List String) → List String →
    Option (List String) × List String × List (String × List String)
  | visited, queue, [] => (none, visited, queue)
  | visited, queue, n :: ns =>
      if visited.contains n then
        bfsNeighbors target path visited queue ns
      else if n = target then
        (some (path ++ [n]), visited, queue)
      else
        bfsNeighbors target path (visited ++ [n]) (queue ++ [(n, path ++ [n])]) ns

/-- Outer loop of the BFS: pop the queue head, process its neighbors.
Fuel bounds the number of pops; since a node is enqueued at most once
(the visited check precedes every enqueue), any fuel exceeding the total
number of adjacency entries plus one is enough. -/
def bfsLoop (graph : Graph) (target : String) :
    Nat → List String → List (String × List String) → List String
  | 0, _, _ => []
  | _ + 1, _, [] => []
  | fuel + 1, visited, (node, path) :: queueRest =>
      match bfsNeighbors target path visited queueRest (adjOf graph node) with
      | (some found, _, _) => found
      | (none, visited', queue') => bfsLoop graph target fuel visited' queue'

/-- Fuel that can never be exhausted: one unit per possible enqueue. -/
def graphFuel (graph : Graph) : Nat :=
  1 + (graph.map (fun p => p.2.length)).sum

/-- `_find_join_path(graph, start, end)` from `sql_planning.py`:
identical endpoints short-circuit to a singleton path, otherwise BFS
from `start` with `start` pre-visited; exhaustion returns `[]`. -/
def find_join_path (graph : Graph) (start target : String) : List String :=
  if start = target then [start]
  else bfsLoop graph target (graphFuel graph) [start] [(start, [start])]

/-! ## Explain collector (`_run_explain`) -/

/-- A result row, modelling the `dict[str, str]` rows returned by the
adapter's query capability. -/
def Row := List (String × String)

/-- The two adapter capabilities consumed by the explain collector
(`get_dialect()` and `query(sql)`); a raising `query` is modelled as
`Except.error` carrying `str(exc)`. -/
structure SqlAdapter where
  dialect : String
  query : String → Except String (List Row)

/-- `_build_explain_sql(sql, dialect)` from `sql_planning.py`. -/
def build_explain_sql (sql : String) (dialect : String) : String :=
  let base := (strip_trailing_semicolon sql).1
  if dialect = "sqlite" then "EXPLAIN QUERY PLAN " ++ base
  else if dialect = "postgresql" || dialect = "postgres" then
    "EXPLAIN (FORMAT JSON) " ++ base
  else "EXPLAIN " ++ base

/-- The dict returned by `_run_explain`: either a `rows` key or an
`error` key accompanies the dialect and the wrapped statement. -/
structure ExplainResult where
  dialect : String
  explain_sql : String
  rows : Option (List Row)
  error : Option String

/-- `_run_explain(sql, adapter)` from `sql_planning.py`: execute the
wrapped EXPLAIN through the adapter; an execution failure is captured as
data (`error` key) instead of propagating. -/
def run_explain (sql : String) (adapter : SqlAdapter) : ExplainResult :=
  let explain_sql := build_explain_sql sql adapter.dialect
  match adapter.query explain_sql with
  | Except.ok rows =>
      { dialect := adapter.dialect, explain_sql := explain_sql,
        rows := some rows, error := none }
  | Except.error exc =>
      { dialect := adapter.dialect, explain_sql := explain_sql,
        rows := none, error := some exc }

/-! ## Helper lemmas -/

lemma hasWordAux_cons (word : List Char) (prev : Option Char) (c : Char) (l : List Char) :
    hasWordAux word prev (c :: l)
      = (wordBoundedAt word prev (c :: l) || hasWordAux word (some c) l) := rfl

/-- The appended block `" LIMIT "` always contains a word-bounded,
case-insensitive occurrence of `limit`, wherever it sits in the text. -/
lemma wordBoundedAt_limit_block (rest : List Char) :
    wordBoundedAt ['l', 'i', 'm', 'i', 't'] (some ' ')
      ('L' :: 'I' :: 'M' :: 'I' :: 'T' :: ' ' :: rest) = true := by
  simp [wordBoundedAt, isWordChar, pyLower, List.isPrefixOf]

lemma hasWordAux_limit_block (pre : List Char) (prev : Option Char) (rest : List Char) :
    hasWordAux ['l', 'i', 'm', 'i', 't'] prev
      (pre ++ ' ' :: 'L' :: 'I' :: 'M' :: 'I' :: 'T' :: ' ' :: rest) = true := by
  induction pre generalizing prev with
  | nil =>
      rw [List.nil_append, hasWordAux_cons, hasWordAux_cons, wordBoundedAt_limit_block]
      simp
  | cons c cs ih =>
      rw [List.cons_append, hasWordAux_cons, ih]
      simp

lemma has_limit_applied (base : String) (n : Int) (semi : String) :
    has_limit (base ++ " LIMIT " ++ toString n ++ semi) = true := by
  have hdata : (base ++ " LIMIT " ++ toString n ++ semi).data
      = base.data ++ ' ' :: 'L' :: 'I' :: 'M' :: 'I' :: 'T' :: ' '
          :: ((toString n).data ++ semi.data) := by
    simp [String.data_append]
  rw [has_limit, hdata, hasWordAux_limit_block]

/-! ## Claim theorems -/

/-- C6: for every SQL string in which `has_limit` is false and every
bound `n`, `apply_limit sql n` returns `added = true` and a rewritten SQL
that appends the clause `LIMIT n` after stripping a trailing semicolon
and restores that semicolon after the bound; for every SQL in which
`has_limit` is true, it returns the input unchanged with
`added = false`. -/
theorem apply_limit_rewrites (sql : String) (n : Int) :
    (has_limit sql = false →
      apply_limit sql n =
        ((strip_trailing_semicolon sql).1 ++ " LIMIT " ++ toString n
           ++ (strip_trailing_semicolon sql).2, true)) ∧
    (has_limit sql = true → apply_limit sql n = (sql, false)) := by
  constructor
  · intro h
    simp [apply_limit, h]
  · intro h
    simp [apply_limit, h]

/-- Witness for C6: both branches at concrete inputs. -/
theorem apply_limit_rewrites_witness :
    apply_limit "select * from t;" 25 = ("select * from t LIMIT 25;", true) ∧
    apply_limit "select * from t limit 3" 25 = ("select * from t limit 3", false) := by
  constructor
  · exact ((apply_limit_rewrites "select * from t;" 25).1 (by decide)).trans (by decide)
  · exact (apply_limit_rewrites "select * from t limit 3" 25).2 (by decide)

/-- C10: `apply_limit` is idempotent: the output of one application
always satisfies `has_limit`, so a second application with any bound
returns its input unchanged with `added = false`. -/
theorem apply_limit_idempotent (sql : String) (n m : Int) :
    has_limit (apply_limit sql n).1 = true ∧
    apply_limit (apply_limit sql n).1 m = ((apply_limit sql n).1, false) := by
  have hstable : ∀ s : String, has_limit s = true → apply_limit s m = (s, false) := by
    intro s h
    simp [apply_limit, h]
  have hfst : has_limit (apply_limit sql n).1 = true := by
    by_cases h : has_limit sql
    · simp [apply_limit, h]
    · simp only [apply_limit, h, Bool.false_eq_true, if_false]
      exact has_limit_applied (strip_trailing_semicolon sql).1 n (strip_trailing_semicolon sql).2
  exact ⟨hfst, hstable _ hfst⟩

/-- Witness for C10 at a concrete input. -/
theorem apply_limit_idempotent_witness :
    has_limit (apply_limit "select * from users;" 10).1 = true ∧
    apply_limit (apply_limit "select * from users;" 10).1 7
      = ((apply_limit "select * from users;" 10).1, false) :=
  apply_limit_idempotent "select * from users;" 10 7

/-- C5: `run_explain` never propagates an adapter failure: whenever the
adapter's query capability fails on the wrapped EXPLAIN statement, the
result still carries the dialect and the explain SQL, has no rows, and
holds the error message as data. -/
theorem run_explain_captures_error (sql : String) (adapter : SqlAdapter) (msg : String)
    (h : adapter.query (build_explain_sql sql adapter.dialect) = Except.error msg) :
    run_explain sql adapter =
      { dialect := adapter.dialect,
        explain_sql := build_explain_sql sql adapter.dialect,
        rows := none, error := some msg } := by
  simp [run_explain, h]

/-- Witness for C5: a concrete adapter whose query capability always
fails. -/
theorem run_explain_captures_error_witness :
    run_explain "select 1;" ⟨"postgres", fun _ => Except.error "connection refused"⟩ =
      { dialect := "postgres",
        explain_sql := "EXPLAIN (FORMAT JSON) select 1",
        rows := none, error := some "connection refused" } :=
  (run_explain_captures_error "select 1;"
    ⟨"postgres", fun _ => Except.error "connection refused"⟩ "connection refused" rfl).trans
    (by simp [build_explain_sql, strip_trailing_semicolon, pyRstrip])

/-- The rule chain of `evaluate_policy` can only produce one of six
fixed decision records. -/
lemma evaluate_policy_cases (sql : String) (plan : Plan) (ro : Bool) :
    evaluate_policy sql plan ro =
        { allowed := false, policy := "READ_ONLY", reason := "WRITE_OPERATION_DETECTED",
          suggested_fix := "Use SELECT or switch to a write tool with explicit approval." }
      ∨ evaluate_policy sql plan ro =
        { allowed := false, policy := "SINGLE_STATEMENT", reason := "MULTIPLE_STATEMENTS_DETECTED",
          suggested_fix := "Send a single statement per request." }
      ∨ evaluate_policy sql plan ro =
        { allowed := false, policy := "JOIN_COMPLEXITY", reason := "TOO_MANY_JOINS",
          suggested_fix := "Reduce joins or add filters and indexes." }
      ∨ evaluate_policy sql plan ro =
        { allowed := true, policy := "SAFE_LIMIT_APPLIED", reason := "NO_WHERE_OR_LIMIT",
          suggested_fix := "Add WHERE filters or a LIMIT clause." }
      ∨ evaluate_policy sql plan ro =
        { allowed := false, policy := "UNBOUNDED_READ", reason := "NO_WHERE_OR_LIMIT",
          suggested_fix := "Add WHERE filters or a LIMIT clause." }
      ∨ evaluate_policy sql plan ro =
        { allowed := false, policy := "RISK_THRESHOLD", reason := "HIGH_RISK_SCORE",
          suggested_fix := "Apply filters, add LIMIT, or optimize indexes." }
      ∨ evaluate_policy sql plan ro =
        { allowed := true, policy := "ALLOW", reason := "", suggested_fix := "" } := by
  unfold evaluate_policy
  dsimp only
  split
  · exact Or.inl rfl
  · split
    · exact Or.inr (Or.inl rfl)
    · split
      · exact Or.inr (Or.inr (Or.inl rfl))
      · split
        · split
          · exact Or.inr (Or.inr (Or.inr (Or.inl rfl)))
          · exact Or.inr (Or.inr (Or.inr (Or.inr (Or.inl rfl))))
        · split
          · exact Or.inr (Or.inr (Or.inr (Or.inr (Or.inr (Or.inl rfl)))))
          · exact Or.inr (Or.inr (Or.inr (Or.inr (Or.inr (Or.inr rfl)))))

/-- C2: every denied policy decision carries a non-empty reason and a
non-empty suggested fix. -/
theorem evaluate_policy_deny_has_remedy (sql : String) (plan : Plan) (ro : Bool)
    (h : (evaluate_policy sql plan ro).allowed = false) :
    (evaluate_policy sql plan ro).reason ≠ ""
      ∧ (evaluate_policy sql plan ro).suggested_fix ≠ "" := by
  rcases evaluate_policy_cases sql plan ro with hc|hc|hc|hc|hc|hc|hc <;>
    rw [hc] at h ⊢ <;> simp_all

/-- Witness for C2 at the denied concrete input of the specification. -/
theorem evaluate_policy_deny_has_remedy_witness :
    (evaluate_policy "select * from users" {} true).reason ≠ ""
      ∧ (evaluate_policy "select * from users" {} true).suggested_fix ≠ "" :=
  evaluate_policy_deny_has_remedy "select * from users" {} true (by decide)

/-- C1: for read-only SQL whose trimmed, lowercased text starts with
`select` or `with`, has no semicolon before its final character, has
fewer than 3 word-bounded `join` occurrences, and has neither a
`" where "` substring nor a word-bounded `limit` token, the decision is
the allow/deny pair of rule 4: allow with `SAFE_LIMIT_APPLIED` exactly
when the plan's `safe_sql` is non-empty and differs (trimmed and
lowercased) from the input text, deny with `UNBOUNDED_READ` otherwise. -/
theorem evaluate_policy_unbounded_branch (sql : String) (plan : Plan)
    (hsw : (['s', 'e', 'l', 'e', 'c', 't'].isPrefixOf (stripLower sql)
              || ['w', 'i', 't', 'h'].isPrefixOf (stripLower sql)) = true)
    (hsemi : (stripLower sql).dropLast.contains ';' = false)
    (hjoin : countJoin (stripLower sql) < 3)
    (hwl : containsSeq " where ".data (' ' :: stripLower sql ++ [' ']) = false)
    (hlim : hasWordAux ['l', 'i', 'm', 'i', 't'] none (stripLower sql) = false) :
    evaluate_policy sql plan true =
      if plan.safe_sql ≠ "" ∧ pyLower (pyStrip plan.safe_sql.data) ≠ stripLower sql then
        { allowed := true, policy := "SAFE_LIMIT_APPLIED", reason := "NO_WHERE_OR_LIMIT",
          suggested_fix := "Add WHERE filters or a LIMIT clause." }
      else
        { allowed := false, policy := "UNBOUNDED_READ", reason := "NO_WHERE_OR_LIMIT",
          suggested_fix := "Add WHERE filters or a LIMIT clause." } := by
  have hj : ¬ 3 ≤ countJoin (stripLower sql) := Nat.not_le.mpr hjoin
  have hsemi' : ';' ∉ (stripLower sql).dropLast := by simpa using hsemi
  have hwl' : containsSeq [' ', 'w', 'h', 'e', 'r', 'e', ' ']
      (' ' :: stripLower sql ++ [' ']) = false := hwl
  unfold evaluate_policy
  dsimp only
  simp [hsw, hsemi', hj, hwl', hlim]
  intro hcontra
  rw [List.cons_append] at hwl'
  rw [hwl'] at hcontra
  exact absurd hcontra (by simp)

/-- Witness for C1: the two concrete decisions named by the
specification. -/
theorem evaluate_policy_unbounded_branch_witness :
    evaluate_policy "select * from users" {} true =
      { allowed := false, policy := "UNBOUNDED_READ", reason := "NO_WHERE_OR_LIMIT",
        suggested_fix := "Add WHERE filters or a LIMIT clause." } ∧
    evaluate_policy "select * from users"
        { safe_sql := "select * from users limit 10", risk_score := 1 / 10 } true =
      { allowed := true, policy := "SAFE_LIMIT_APPLIED", reason := "NO_WHERE_OR_LIMIT",
        suggested_fix := "Add WHERE filters or a LIMIT clause." } := by
  constructor
  · exact (evaluate_policy_unbounded_branch "select * from users" {}
      (by decide) (by decide) (by decide) (by decide) (by decide)).trans (by decide)
  · exact (evaluate_policy_unbounded_branch "select * from users"
      { safe_sql := "select * from users limit 10", risk_score := 1 / 10 }
      (by decide) (by decide) (by decide) (by decide) (by decide)).trans (by decide)

/-- Refutation of C3 as stated: a write statement with three word-bounded
`join` occurrences is caught by the earlier READ_ONLY rule, not by
JOIN_COMPLEXITY. -/
theorem join_complexity_universal_cex :
    3 ≤ countJoin (stripLower "delete from a join b join c join d") ∧
    (evaluate_policy "delete from a join b join c join d" {} true).policy
      ≠ "JOIN_COMPLEXITY" := by
  constructor
  · decide
  · decide

/-- C3 amended: for every SQL that passes the two earlier rules (when
`read_only` is set, the trimmed lowercased text starts with `select` or
`with`; and no semicolon occurs before the final character) and contains
at least 3 word-bounded `join` occurrences, the decision is the
JOIN_COMPLEXITY deny, for every plan — in particular regardless of the
plan's risk score. -/
theorem evaluate_policy_join_complexity (sql : String) (plan : Plan) (ro : Bool)
    (hstart : ro = true →
      (['s', 'e', 'l', 'e', 'c', 't'].isPrefixOf (stripLower sql)
         || ['w', 'i', 't', 'h'].isPrefixOf (stripLower sql)) = true)
    (hsemi : (stripLower sql).dropLast.contains ';' = false)
    (hjoin : 3 ≤ countJoin (stripLower sql)) :
    evaluate_policy sql plan ro =
      { allowed := false, policy := "JOIN_COMPLEXITY", reason := "TOO_MANY_JOINS",
        suggested_fix := "Reduce joins or add filters and indexes." } := by
  have h1 : ¬ (ro = true
      ∧ ['s', 'e', 'l', 'e', 'c', 't'].isPrefixOf (stripLower sql) = false
      ∧ ['w', 'i', 't', 'h'].isPrefixOf (stripLower sql) = false) := by
    rintro ⟨hro, hs, hw⟩
    have hd := hstart hro
    rw [hs, hw] at hd
    exact absurd hd (by simp)
  have hsemi' : ';' ∉ (stripLower sql).dropLast := by simpa using hsemi
  unfold evaluate_policy
  dsimp only
  simp [h1, hsemi', hjoin]

/-- Witness for the amended C3: a three-join SELECT with a high-risk
plan is still denied as JOIN_COMPLEXITY. -/
theorem evaluate_policy_join_complexity_witness :
    evaluate_policy
        "select * from a join b on a.id=b.a_id join c on b.id=c.b_id join d on c.id=d.c_id"
        { safe_sql := "", risk_score := 9 / 10 } true =
      { allowed := false, policy := "JOIN_COMPLEXITY", reason := "TOO_MANY_JOINS",
        suggested_fix := "Reduce joins or add filters and indexes." } :=
  evaluate_policy_join_complexity
    "select * from a join b on a.id=b.a_id join c on b.id=c.b_id join d on c.id=d.c_id"
    { safe_sql := "", risk_score := 9 / 10 } true
    (fun _ => by decide) (by decide) (by decide)

lemma riskScoreRaw_nonneg (text : List Char) (meta : PlanMeta) :
    0 ≤ riskScoreRaw text meta := by
  unfold riskScoreRaw
  split_ifs <;> norm_num

lemma round2_bounds (q : ℚ) (h0 : 0 ≤ q) (h1 : q ≤ 1) :
    0 ≤ round2 q ∧ round2 q ≤ 1 := by
  have hl : (0 : ℤ) ≤ round (q * 100) := by
    rw [round_eq]
    exact Int.floor_nonneg.mpr (by linarith)
  have hu : round (q * 100) ≤ (100 : ℤ) := by
    rw [round_eq]
    exact Int.floor_le_iff.mpr (by push_cast; linarith)
  constructor
  · exact div_nonneg (by exact_mod_cast hl) (by norm_num)
  · rw [round2, div_le_one (by norm_num : (0 : ℚ) < 100)]
    exact_mod_cast hu

/-- C4: for every SQL string and every plan metadata, the risk
assessment's score lies in `[0, 1]`: the additive score is capped at 1
and rounding to two decimals keeps it in the interval. -/
theorem risk_score_bounded (sql : String) (meta : PlanMeta) :
    0 ≤ (assess_query_risk sql meta).risk_score
      ∧ (assess_query_risk sql meta).risk_score ≤ 1 := by
  have hs : (assess_query_risk sql meta).risk_score
      = round2 (min (riskScoreRaw (stripLower sql) meta) 1) := rfl
  rw [hs]
  exact round2_bounds _
    (le_min (riskScoreRaw_nonneg _ _) (by norm_num))
    (min_le_right _ _)

/-- Witness for C4: the bound instantiated at a concrete query that fires
several heuristics at once. -/
theorem risk_score_bounded_witness :
    0 ≤ (assess_query_risk "select * from a join b on a.id = b.aid order by a.x"
          { total_cost := some 20000, plan_risks := ["Sequential scan on a."] }).risk_score
      ∧ (assess_query_risk "select * from a join b on a.id = b.aid order by a.x"
          { total_cost := some 20000, plan_risks := ["Sequential scan on a."] }).risk_score ≤ 1 :=
  risk_score_bounded "select * from a join b on a.id = b.aid order by a.x"
    { total_cost := some 20000, plan_risks := ["Sequential scan on a."] }

/-- C9: `find_join_path` behaves as a breadth-first shortest-path search:
identical endpoints give a one-element path on every graph; on the graph
`A–B, B–C` the query `A→C` gives `["A","B","C"]` (and no one-edge path
exists, since `C` is not adjacent to `A`); a disconnected target gives
the empty sequence. -/
theorem find_join_path_bfs :
    (∀ (graph : Graph) (a : String), find_join_path graph a a = [a])
      ∧ find_join_path [("A", ["B"]), ("B", ["A", "C"]), ("C", ["B"])] "A" "C"
          = ["A", "B", "C"]
      ∧ "C" ∉ adjOf [("A", ["B"]), ("B", ["A", "C"]), ("C", ["B"])] "A"
      ∧ find_join_path [("A", ["B"]), ("B", ["A", "C"]), ("C", ["B"])] "A" "D" = [] := by
  refine ⟨fun graph a => ?_, by decide, by decide, by decide⟩
  simp [find_join_path]

/-- Witness for C9: the universal identical-endpoint clause instantiated
on a concrete graph and node. -/
theorem find_join_path_bfs_witness :
    find_join_path [("A", ["B"]), ("B", ["A", "C"]), ("C", ["B"])] "B" "B" = ["B"] :=
  find_join_path_bfs.1 [("A", ["B"]), ("B", ["A", "C"]), ("C", ["B"])] "B"

/-- C7 as coded: the leading-wildcard rule's compiled pattern
`like\\s+'%.*%'` demands a literal backslash between `like` and the
quote, so on the plain SQL `select id from t where name like '%abc%'`
the rule contributes nothing — no 0.2 addend, no reason, no
improvement. -/
theorem like_rule_silent_on_plain_sql :
    assess_query_risk "select id from t where name like '%abc%'" {} =
      { risk_score := 0, risky_reasons := [],
        improvements := ["Query looks reasonable; no obvious improvements detected."] } := by
  have h1 : riskNoWhereLimit (stripLower "select id from t where name like '%abc%'")
      = false := by decide
  have h2 : riskJoin (stripLower "select id from t where name like '%abc%'")
      = false := by decide
  have h3 : searchLike (stripLower "select id from t where name like '%abc%'")
      = false := by decide
  have h4 : riskOrderBy (stripLower "select id from t where name like '%abc%'")
      = false := by decide
  have h5 : searchSelStar (stripLower "select id from t where name like '%abc%'")
      = false := by decide
  have h6 : suggest_indexes_from_sql
      (String.mk (stripLower "select id from t where name like '%abc%'")) = [] := by decide
  unfold assess_query_risk riskScoreRaw
  dsimp only
  simp [h1, h2, h3, h4, h5, h6, riskHighCost, round2]

/-- Refutation of C8 as stated: on the specification's own example —
joining `orders o` on `o.user_id` and filtering `u.id` in the WHERE
clause — the code emits no suggestion at all, in particular none
referencing `o.user_id` or `u.id`. -/
theorem suggest_indexes_example_cex :
    suggest_indexes_from_sql
      "select u.id, o.total from users u join orders o on o.user_id = u.id where u.id = 42"
      = [] := by
  decide

lemma expectLit_suffix (pat : List Char) :
    ∀ (l bl : List Char), expectLit pat l = some bl → bl <:+ l := by
  induction pat with
  | nil =>
      intro l bl h
      unfold expectLit at h
      injection h with h
      exact h ▸ List.suffix_refl l
  | cons c cs ih =>
      intro l bl h
      cases l with
      | nil => exact absurd h (by simp [expectLit])
      | cons x xs =>
          unfold expectLit at h
          split_ifs at h
          exact (ih xs bl h).trans (List.suffix_cons x xs)

lemma matchSPlusGroup_no_backslash (l : List Char) (h : '\\' ∉ l) :
    matchSPlusGroup l = none := by
  cases l with
  | nil => rfl
  | cons c rest =>
      have hc : c ≠ '\\' := fun he => h (he ▸ List.mem_cons_self c rest)
      unfold matchSPlusGroup
      split <;> simp_all

lemma matchBackslashSRun_no_backslash (l : List Char) (h : '\\' ∉ l) :
    matchBackslashSRun l = none := by
  cases l with
  | nil => rfl
  | cons c rest =>
      have hc : c ≠ '\\' := fun he => h (he ▸ List.mem_cons_self c rest)
      unfold matchBackslashSRun
      split <;> simp_all

lemma matchJoinOnAt_no_backslash (l : List Char) (h : '\\' ∉ l) :
    matchJoinOnAt l = none := by
  unfold matchJoinOnAt
  cases hE : expectLit ['j', 'o', 'i', 'n'] l with
  | none => rfl
  | some l' =>
      have h' : '\\' ∉ l' := fun hm => h ((expectLit_suffix _ _ _ hE).subset hm)
      simp [Option.bind, matchSPlusGroup_no_backslash l' h']

lemma matchWhereAt_no_backslash (l : List Char) (h : '\\' ∉ l) :
    matchWhereAt l = none := by
  unfold matchWhereAt
  cases hE : expectLit ['w', 'h', 'e', 'r', 'e'] l with
  | none => rfl
  | some l' =>
      have h' : '\\' ∉ l' := fun hm => h ((expectLit_suffix _ _ _ hE).subset hm)
      simp [Option.bind, matchSPlusGroup_no_backslash l' h']

lemma matchOrderByAt_no_backslash (l : List Char) (h : '\\' ∉ l) :
    matchOrderByAt l = none := by
  unfold matchOrderByAt
  cases hE : expectLit ['o', 'r', 'd', 'e', 'r'] l with
  | none => rfl
  | some l' =>
      have h' : '\\' ∉ l' := fun hm => h ((expectLit_suffix _ _ _ hE).subset hm)
      simp [Option.bind, matchBackslashSRun_no_backslash l' h']

lemma scanAll_no_backslash {α : Type} (m : List Char → Option (α × List Char))
    (hm : ∀ l, '\\' ∉ l → m l = none) :
    ∀ (fuel : Nat) (l : List Char), '\\' ∉ l → scanAll m fuel l = [] := by
  intro fuel
  induction fuel with
  | zero => intro l _; rfl
  | succ n ih =>
      intro l h
      cases l with
      | nil => rfl
      | cons c rest =>
          have h' : '\\' ∉ rest := fun hm' => h (List.mem_cons_of_mem c hm')
          unfold scanAll
          rw [hm (c :: rest) h]
          exact ih rest h'

/-- C8 amended: every pattern of `_suggest_indexes_from_sql` requires a
literal backslash (the raw strings spell whitespace as `\\s`), so on any
SQL whose lowercased text contains no backslash — in particular on the
specification's `orders o` / `u.id` example — the function returns the
empty suggestion list. -/
theorem suggest_indexes_no_backslash (sql : String)
    (h : '\\' ∉ pyLower sql.data) :
    suggest_indexes_from_sql sql = [] := by
  unfold suggest_indexes_from_sql findAll
  dsimp only
  rw [scanAll_no_backslash matchJoinOnAt matchJoinOnAt_no_backslash _ _ h,
    scanAll_no_backslash matchWhereAt matchWhereAt_no_backslash _ _ h,
    scanAll_no_backslash matchOrderByAt matchOrderByAt_no_backslash _ _ h]
  rfl

/-- Witness for the amended C8 at the specification's example query. -/
theorem suggest_indexes_no_backslash_witness :
    suggest_indexes_from_sql
      "select o.total from users u join orders o on o.user_id = u.id where u.id = 7"
      = [] :=
  suggest_indexes_no_backslash
    "select o.total from users u join orders o on o.user_id = u.id where u.id = 7"
    (by decide)

end McpSqlAgent
